import Mathlib

/-!
Shallow embedding of the EDF/ASC trial parser in
`neurosystems/neurosystems.py` (the functions `replace_missing` and
`read_edf`).  Python strings are Lean `String`s; Python floats are modelled
as exact rationals (`Rat`) — every numeric literal appearing in the claims
is an exact decimal, so binary rounding plays no role here; Python
exceptions are the `Except` monad.  `read_edf` takes the already-read list
of lines (`raw = f.readlines()`) in place of the file name, so the
file-existence check is outside the model.
-/

attribute [local semireducible] Rat.add Rat.mul Rat.inv Rat.sub Rat.ofScientific

namespace Neurosystems

/-- Exception kinds reachable in `read_edf`. -/
inductive PyError where
  | indexError
  | valueError
  deriving DecidableEq, Repr

/-- Characters that `int()` and `float()` in Python strip from both ends
of their argument (the ASCII whitespace set). -/
def isPySpace (c : Char) : Bool :=
  c = ' ' || c = '\t' || c = '\n' || c = '\r' || c = Char.ofNat 11 || c = Char.ofNat 12

/-- Strip `isPySpace` characters from both ends of a character list. -/
def pyStrip (l : List Char) : List Char :=
  ((l.dropWhile isPySpace).reverse.dropWhile isPySpace).reverse

/-- Value of a run of ASCII digits. -/
def digitsVal (l : List Char) : Nat :=
  l.foldl (fun a c => 10 * a + (c.toNat - 48)) 0

/-- A nonempty run of ASCII digits. -/
def allDigits (l : List Char) : Bool :=
  !l.isEmpty && l.all Char.isDigit

/-- Python `int(s)` on text: optional surrounding whitespace, optional
sign, then a nonempty run of ASCII digits (underscore digit grouping and
non-ASCII digits are not modelled).  `none` models the `ValueError`. -/
def pyIntOfChars (l : List Char) : Option Int :=
  match pyStrip l with
  | '+' :: ds => if allDigits ds then some (digitsVal ds : Int) else none
  | '-' :: ds => if allDigits ds then some (-(digitsVal ds : Int)) else none
  | ds => if allDigits ds then some (digitsVal ds : Int) else none

/-- Split a character list at the first exponent marker of a float
literal, keeping what follows it. -/
def splitAtExpChar : List Char → List Char × Option (List Char)
  | [] => ([], none)
  | c :: r =>
      if c = 'e' || c = 'E' then ([], some r)
      else
        let p := splitAtExpChar r
        (c :: p.1, p.2)

/-- Mantissa of a Python float literal (sign already removed): either
`digits`, `digits.digits*`, or `.digits`, as an exact rational. -/
def parseMantissa (l : List Char) : Option Rat :=
  let ip := l.takeWhile Char.isDigit
  let rest := l.dropWhile Char.isDigit
  match rest with
  | [] => if ip.isEmpty then none else some (digitsVal ip : Rat)
  | '.' :: fr =>
      if fr.all Char.isDigit && !(ip.isEmpty && fr.isEmpty) then
        some ((digitsVal ip : Rat) + (digitsVal fr : Rat) / (10 : Rat) ^ fr.length)
      else none
  | _ => none

/-- Exponent part of a Python float literal. -/
def parseExpPart (l : List Char) : Option Int :=
  match l with
  | '+' :: ds => if allDigits ds then some (digitsVal ds : Int) else none
  | '-' :: ds => if allDigits ds then some (-(digitsVal ds : Int)) else none
  | ds => if allDigits ds then some (digitsVal ds : Int) else none

/-- Python `float(s)` on finite decimal literals: optional surrounding
whitespace, optional sign, mantissa, optional exponent.  The special forms
`inf` and `nan` and underscore grouping are not modelled; the value is the
exact rational denoted by the literal.  `none` models the `ValueError`. -/
def pyFloatOfChars (l : List Char) : Option Rat :=
  let t := pyStrip l
  let sl : Rat × List Char :=
    match t with
    | '+' :: r => (1, r)
    | '-' :: r => (-1, r)
    | r => (1, r)
  let me := splitAtExpChar sl.2
  match parseMantissa me.1 with
  | none => none
  | some m =>
      match me.2 with
      | none => some (sl.1 * m)
      | some ex =>
          match parseExpPart ex with
          | none => none
          | some e => some (sl.1 * m * (10 : Rat) ^ (e : Int))

/-- Index of the first occurrence of a character, `-1` if absent
(Python `s.find(c)`). -/
def pyFindAux (c : Char) : List Char → Int
  | [] => -1
  | a :: r =>
      if a = c then 0
      else
        let k := pyFindAux c r
        if k = -1 then -1 else k + 1

/-- Python `s.find(c)`. -/
def pyFind (s : String) (c : Char) : Int := pyFindAux c s.data

/-- Normalize one Python slice bound into `[0, len]`. -/
def pyBound (len : Nat) (i : Int) : Nat :=
  if i < 0 then ((len : Int) + i).toNat else min i.toNat len

/-- Python `s[a:b]` with integer bounds (negative bounds count from the
end; out-of-range bounds are clamped). -/
def pySlice (s : String) (a b : Int) : String :=
  ⟨(s.data.take (pyBound s.data.length b)).drop (pyBound s.data.length a)⟩

/-- Python `s[a:]`. -/
def pySliceFrom (s : String) (a : Int) : String :=
  pySlice s a (s.data.length : Int)

/-- Helper for `pySplit`: accumulate the current field (reversed). -/
def pySplitAux (c : Char) : List Char → List Char → List String
  | [], acc => [⟨acc.reverse⟩]
  | a :: r, acc =>
      if a = c then ⟨acc.reverse⟩ :: pySplitAux c r []
      else pySplitAux c r (a :: acc)

/-- Python `s.split(c)` for a one-character separator: always returns at
least one field, and keeps empty fields. -/
def pySplit (s : String) (c : Char) : List String := pySplitAux c s.data []

/-- Is the first list a leading segment of the second? -/
def charsPre : List Char → List Char → Bool
  | [], _ => true
  | _ :: _, [] => false
  | a :: as, b :: bs => a = b && charsPre as bs

/-- Contiguous containment of one character list in another. -/
def charsSub (sub : List Char) : List Char → Bool
  | [] => sub.isEmpty
  | b :: bs => charsPre sub (b :: bs) || charsSub sub bs

/-- Python `sub in s` on strings. -/
def pyContains (s sub : String) : Bool := charsSub sub.data s.data

/-- `int()` lifted into the exception monad. -/
def pyIntE (s : String) : Except PyError Int :=
  match pyIntOfChars s.data with
  | some n => .ok n
  | none => .error .valueError

/-- `float()` lifted into the exception monad. -/
def pyFloatE (s : String) : Except PyError Rat :=
  match pyFloatOfChars s.data with
  | some q => .ok q
  | none => .error .valueError

/-- Python list indexing `l[i]` for a nonnegative index: raises
`IndexError` out of range. -/
def pyGetE (l : List String) (i : Nat) : Except PyError String :=
  match l.get? i with
  | some v => .ok v
  | none => .error .indexError

/-- `replace_missing` from the source: a gaze-position field equal to a
single period once every space is removed is the missing-data code;
anything else goes through `float()`. -/
def replace_missing (value : String) (missing : Rat) : Except PyError Rat :=
  if value.data.filter (fun c => c != ' ') = ['.'] then .ok missing
  else pyFloatE value

/-- An `Efix` entry `[starttime, endtime, duration, endx, endy]`. -/
structure EfixEntry where
  st : Int
  et : Int
  dur : Int
  sx : Rat
  sy : Rat
  deriving DecidableEq, Repr

/-- An `Esac` entry
`[starttime, endtime, duration, startx, starty, endx, endy]`. -/
structure EsacEntry where
  st : Int
  et : Int
  dur : Int
  sx : Rat
  sy : Rat
  ex : Rat
  ey : Rat
  deriving DecidableEq, Repr

/-- The seven event accumulators of `read_edf`.  `Sfix`, `Ssac` and `Sblk`
hold bare integer timestamps, exactly as the source appends them (the
docstring of the source announces singleton lists there, but the code
appends `int(l)` itself). -/
structure Events where
  Sfix : List Int
  Ssac : List Int
  Sblk : List Int
  Efix : List EfixEntry
  Esac : List EsacEntry
  Eblk : List (Int × Int × Int)
  msg : List (Int × String)
  deriving DecidableEq, Repr

/-- The reset value of the event accumulators. -/
def emptyEvents : Events := ⟨[], [], [], [], [], [], []⟩

/-- One trial record of the returned document. -/
structure Trial where
  x : List Rat
  y : List Rat
  size : List Rat
  time : List Int
  trackertime : List Int
  events : Events
  deriving DecidableEq, Repr

/-- The mutable loop state of `read_edf` (lines 132-141 of the source):
the emitted trials so far, the five sample buffers, the event buffers, the
current trial-start timestamp and the `started` flag. -/
structure PState where
  data : List Trial
  x : List Rat
  y : List Rat
  size : List Rat
  time : List Int
  trackertime : List Int
  events : Events
  starttime : Int
  started : Bool
  deriving DecidableEq, Repr

/-- The state before the first line. -/
def initState : PState := ⟨[], [], [], [], [], [], emptyEvents, 0, false⟩

/-- The trial built from the current buffers (lines 166-172). -/
def mkTrial (ps : PState) : Trial :=
  ⟨ps.x, ps.y, ps.size, ps.time, ps.trackertime, ps.events⟩

/-- Lines 163-182 of the source: emit the accumulated trial and reset the
accumulation buffers (starttime and the started flag are untouched). -/
def flushTrial (ps : PState) : PState :=
  { ps with data := ps.data ++ [mkTrial ps],
            x := [], y := [], size := [], time := [], trackertime := [],
            events := emptyEvents }

/-- Lines 200-204: timestamp and text of a `MSG` line.  `ms` is the index
of the first space (`-1` if none); the timestamp is `int(line[4:ms])` and
the text is `line[ms+1:]`. -/
def parseMsg (line : String) : Except PyError (Int × String) := do
  let ms := pyFind line ' '
  let t ← pyIntE (pySlice line 4 ms)
  pure (t, pySliceFrom line (ms + 1))

/-- Lines 211-214 (and 227-230, 245-248): the integer in `line[9:]`. -/
def parseStartEvent (line : String) : Except PyError Int :=
  pyIntE (pySliceFrom line 9)

/-- Lines 216-225: the `EFIX L` payload — `line[9:]` split on tab gives
start time, end time, duration (integers) and the two gaze coordinates
through `replace_missing`. -/
def parseEfix (missing : Rat) (line : String) : Except PyError EfixEntry := do
  let l := pySplit (pySliceFrom line 9) '\t'
  let f0 ← pyGetE l 0
  let st ← pyIntE f0
  let f1 ← pyGetE l 1
  let et ← pyIntE f1
  let f2 ← pyGetE l 2
  let dur ← pyIntE f2
  let f3 ← pyGetE l 3
  let sx ← replace_missing f3 missing
  let f4 ← pyGetE l 4
  let sy ← replace_missing f4 missing
  pure ⟨st, et, dur, sx, sy⟩

/-- Lines 232-243: the `ESACC L` payload. -/
def parseEsac (missing : Rat) (line : String) : Except PyError EsacEntry := do
  let l := pySplit (pySliceFrom line 9) '\t'
  let f0 ← pyGetE l 0
  let st ← pyIntE f0
  let f1 ← pyGetE l 1
  let et ← pyIntE f1
  let f2 ← pyGetE l 2
  let dur ← pyIntE f2
  let f3 ← pyGetE l 3
  let sx ← replace_missing f3 missing
  let f4 ← pyGetE l 4
  let sy ← replace_missing f4 missing
  let f5 ← pyGetE l 5
  let ex ← replace_missing f5 missing
  let f6 ← pyGetE l 6
  let ey ← replace_missing f6 missing
  pure ⟨st, et, dur, sx, sy, ex, ey⟩

/-- Lines 250-257: the `EBLINK` payload. -/
def parseEblk (line : String) : Except PyError (Int × Int × Int) := do
  let l := pySplit (pySliceFrom line 9) '\t'
  let f0 ← pyGetE l 0
  let st ← pyIntE f0
  let f1 ← pyGetE l 1
  let et ← pyIntE f1
  let f2 ← pyGetE l 2
  let dur ← pyIntE f2
  pure (st, et, dur)

/-- Lines 266-287: the raw-sample branch, applied to the tab-split line.
`none` models the guarded `try`/`except` skip (the only thing guarded is
the integer check on the first field); `some` carries the remainder of the
branch, whose failures are uncaught.  A pupil-size field equal to zero
forces both gaze coordinates to zero without reading their text. -/
def parseSample (l : List String) : Option (Except PyError (Int × Rat × Rat × Rat)) :=
  match pyIntOfChars (l.headD "").data with
  | none => none
  | some t => some (do
      let s3 ← pyGetE l 3
      let sz ← pyFloatE s3
      let xv ← if sz = 0 then pure (0 : Rat) else do
        let s1 ← pyGetE l 1
        pyFloatE s1
      let yv ← if sz = 0 then pure (0 : Rat) else do
        let s2 ← pyGetE l 2
        pyFloatE s2
      pure (t, xv, yv, sz))

/-- Lines 196-287 of the source: dispatch one line while the `started`
flag is set, in the exact `elif` order of the source. -/
def classifyLine (missing : Rat) (ps : PState) (line : String) : Except PyError PState :=
  if pySlice line 0 3 = "MSG" then
    (parseMsg line).map fun r =>
      { ps with events := { ps.events with msg := ps.events.msg ++ [r] } }
  else if pySlice line 0 6 = "SFIX L" then
    (parseStartEvent line).map fun t =>
      { ps with events := { ps.events with Sfix := ps.events.Sfix ++ [t] } }
  else if pySlice line 0 6 = "EFIX L" then
    (parseEfix missing line).map fun r =>
      { ps with events := { ps.events with Efix := ps.events.Efix ++ [r] } }
  else if pySlice line 0 7 = "SSACC L" then
    (parseStartEvent line).map fun t =>
      { ps with events := { ps.events with Ssac := ps.events.Ssac ++ [t] } }
  else if pySlice line 0 7 = "ESACC L" then
    (parseEsac missing line).map fun r =>
      { ps with events := { ps.events with Esac := ps.events.Esac ++ [r] } }
  else if pySlice line 0 6 = "SBLINK" then
    (parseStartEvent line).map fun t =>
      { ps with events := { ps.events with Sblk := ps.events.Sblk ++ [t] } }
  else if pySlice line 0 6 = "EBLINK" then
    (parseEblk line).map fun r =>
      { ps with events := { ps.events with Eblk := ps.events.Eblk ++ [r] } }
  else
    match parseSample (pySplit line '\t') with
    | none => .ok ps
    | some r =>
        r.map fun q =>
          { ps with x := ps.x ++ [q.2.1], y := ps.y ++ [q.2.2.1],
                    size := ps.size ++ [q.2.2.2],
                    time := ps.time ++ [q.1 - ps.starttime],
                    trackertime := ps.trackertime ++ [q.1] }

/-- Lines 148-191 of the source: trial-boundary handling for one line.
While started: with a stop marker configured, a line containing it ends
the trial; with none, a line containing the start marker or equal (as
text) to the final line ends the trial and the started flag stays set.
While idle: a line containing the start marker sets the flag and parses
the trial-start timestamp from between the first tab and the first
space. -/
def handleBoundary (start : String) (stop : Option String) (finalline : String)
    (ps : PState) (line : String) : Except PyError PState :=
  if ps.started then
    match stop with
    | some sm =>
        if pyContains line sm then .ok (flushTrial { ps with started := false })
        else .ok ps
    | none =>
        if pyContains line start || line == finalline then
          .ok (flushTrial { ps with started := true })
        else .ok ps
  else
    if pyContains line start then
      (pyIntE (pySlice line (pyFind line '\t' + 1) (pyFind line ' '))).map fun t =>
        { ps with started := true, starttime := t }
    else .ok ps

/-- One iteration of the `for line in raw` loop (lines 145-287): boundary
handling first, then, if the (possibly updated) started flag is set, line
classification on the same line. -/
def processLine (start : String) (stop : Option String) (missing : Rat) (finalline : String)
    (ps : PState) (line : String) : Except PyError PState := do
  let ps1 ← handleBoundary start stop finalline ps line
  if ps1.started then classifyLine missing ps1 line else pure ps1

/-- `read_edf` (lines 61-293), over the already-read list of lines.
`finalline = raw[-1]` raises `IndexError` on an empty input; otherwise the
loop runs over every line and the accumulated `data` list is returned. -/
def read_edf (raw : List String) (start : String) (stop : Option String) (missing : Rat) :
    Except PyError (List Trial) :=
  match raw.getLast? with
  | none => .error .indexError
  | some finalline =>
      (raw.foldlM (processLine start stop missing finalline) initState).map PState.data

/-- A trial as emitted by the parser: the five sample sequences have one
entry per accepted sample line, and `time` is `trackertime` shifted by a
single base timestamp. -/
def TrialGood (T : Trial) : Prop :=
  T.y.length = T.x.length ∧ T.size.length = T.x.length ∧
  T.trackertime.length = T.x.length ∧
  ∃ s : Int, T.time = T.trackertime.map (fun tt => tt - s)

/-- The loop invariant of `read_edf`: the buffers are aligned, `time`
is `trackertime` shifted by the current `starttime`, the buffers are empty
whenever no trial is open, and every emitted trial is `TrialGood`. -/
def Inv (ps : PState) : Prop :=
  ps.y.length = ps.x.length ∧ ps.size.length = ps.x.length ∧
  ps.trackertime.length = ps.x.length ∧
  ps.time = ps.trackertime.map (fun tt => tt - ps.starttime) ∧
  (ps.started = false → ps.x = []) ∧
  ∀ T ∈ ps.data, TrialGood T

/-- Concrete input for the back-to-back-start scenario: two start lines
followed by one sample line and a closing final line. -/
def rawRestart : List String :=
  ["MSG\t100 TRIALSTART\n", "MSG\t200 TRIALSTART\n", "1000\t1.0\t2.0\t3.0\n", "END\n"]

/-- The first trial the parser emits on `rawRestart`. -/
def trialRestart1 : Trial :=
  ⟨[], [], [], [], [], ⟨[], [], [], [], [], [], [(100, "TRIALSTART\n")]⟩⟩

/-- The second trial the parser emits on `rawRestart`. -/
def trialRestart2 : Trial :=
  ⟨[1], [2], [3], [900], [1000], ⟨[], [], [], [], [], [], [(200, "TRIALSTART\n")]⟩⟩

/-- The trial the parser emits on the scenario-5 style input with start
timestamp 900 and one zero-pupil sample line. -/
def trialScenario5 : Trial :=
  ⟨[0], [0], [0], [100], [1000], ⟨[], [], [], [], [], [], [(900, "S\n")]⟩⟩

/-! Inversion helpers for the exception monad. -/

theorem except_map_ok {α β : Type} {f : α → β} {e : Except PyError α} {b : β} :
    e.map f = .ok b ↔ ∃ a, e = .ok a ∧ f a = b := by
  cases e <;> simp [Except.map]

theorem except_bind_ok {α β : Type} {e : Except PyError α} {f : α → Except PyError β}
    {b : β} : e >>= f = .ok b ↔ ∃ a, e = .ok a ∧ f a = .ok b := by
  cases e <;> simp [Bind.bind, Except.bind]

/-- A property preserved by every successful step of a fold in the
exception monad holds at any successful end state. -/
theorem foldlM_except_ok_ind {α σ : Type} {f : σ → α → Except PyError σ} (P : σ → Prop)
    (hf : ∀ s a s2, P s → f s a = .ok s2 → P s2) :
    ∀ (l : List α) (s s2 : σ), P s → l.foldlM f s = .ok s2 → P s2 := by
  intro l
  induction l with
  | nil =>
      intro s s2 hP h
      simp only [List.foldlM_nil, pure, Except.pure] at h
      injection h with h2
      exact h2 ▸ hP
  | cons a r ih =>
      intro s s2 hP h
      rw [List.foldlM_cons] at h
      obtain ⟨s1, h1, h2⟩ := except_bind_ok.mp h
      exact ih s1 s2 (hf s a s1 hP h1) h2

/-- Everything `handleBoundary` can successfully do to the state: leave it
alone, flush the current buffers into a trial (with the started flag set
by the branch), or — only from the idle state — open a trial, recording a
freshly parsed start timestamp. -/
theorem handleBoundary_cases {start : String} {stop : Option String} {finalline : String}
    {ps ps2 : PState} {line : String}
    (h : handleBoundary start stop finalline ps line = .ok ps2) :
    ps2 = ps
    ∨ (∃ b, ps2 = flushTrial { ps with started := b })
    ∨ (ps.started = false ∧ ∃ t, ps2 = { ps with started := true, starttime := t }) := by
  unfold handleBoundary at h
  by_cases hs : ps.started = true
  · rw [if_pos hs] at h
    cases stop with
    | some sm =>
        dsimp only at h
        by_cases hc : pyContains line sm = true
        · rw [if_pos hc] at h
          injection h with h2
          exact Or.inr (Or.inl ⟨false, h2.symm⟩)
        · rw [if_neg hc] at h
          injection h with h2
          exact Or.inl h2.symm
    | none =>
        dsimp only at h
        by_cases hc : (pyContains line start || line == finalline) = true
        · rw [if_pos hc] at h
          injection h with h2
          exact Or.inr (Or.inl ⟨true, h2.symm⟩)
        · rw [if_neg hc] at h
          injection h with h2
          exact Or.inl h2.symm
  · rw [if_neg hs] at h
    by_cases hc : pyContains line start = true
    · rw [if_pos hc] at h
      obtain ⟨t, _, h2⟩ := except_map_ok.mp h
      exact Or.inr (Or.inr ⟨Bool.not_eq_true _ ▸ hs, t, h2.symm⟩)
    · rw [if_neg hc] at h
      injection h with h2
      exact Or.inl h2.symm

/-- Everything `classifyLine` can successfully do to the state: change
only the event accumulators, or append one value to each of the five
sample buffers, the appended `time` entry being the appended
`trackertime` entry minus the current `starttime`. -/
theorem classifyLine_cases {missing : Rat} {ps ps2 : PState} {line : String}
    (h : classifyLine missing ps line = .ok ps2) :
    (∃ ev, ps2 = { ps with events := ev })
    ∨ (∃ t xv yv sz, ps2 = { ps with
          x := ps.x ++ [xv], y := ps.y ++ [yv], size := ps.size ++ [sz],
          time := ps.time ++ [t - ps.starttime],
          trackertime := ps.trackertime ++ [t] }) := by
  unfold classifyLine at h
  split at h
  · obtain ⟨r, _, h2⟩ := except_map_ok.mp h
    exact Or.inl ⟨_, h2.symm⟩
  · split at h
    · obtain ⟨r, _, h2⟩ := except_map_ok.mp h
      exact Or.inl ⟨_, h2.symm⟩
    · split at h
      · obtain ⟨r, _, h2⟩ := except_map_ok.mp h
        exact Or.inl ⟨_, h2.symm⟩
      · split at h
        · obtain ⟨r, _, h2⟩ := except_map_ok.mp h
          exact Or.inl ⟨_, h2.symm⟩
        · split at h
          · obtain ⟨r, _, h2⟩ := except_map_ok.mp h
            exact Or.inl ⟨_, h2.symm⟩
          · split at h
            · obtain ⟨r, _, h2⟩ := except_map_ok.mp h
              exact Or.inl ⟨_, h2.symm⟩
            · split at h
              · obtain ⟨r, _, h2⟩ := except_map_ok.mp h
                exact Or.inl ⟨_, h2.symm⟩
              · split at h
                · injection h with h2
                  exact Or.inl ⟨ps.events, by rw [← h2]⟩
                · obtain ⟨q, _, h2⟩ := except_map_ok.mp h
                  exact Or.inr ⟨q.1, q.2.1, q.2.2.1, q.2.2.2, h2.symm⟩

theorem inv_initState : Inv initState := by
  refine ⟨rfl, rfl, rfl, rfl, fun _ => rfl, ?_⟩
  intro T hT
  simp [initState] at hT

theorem processLine_inv {start : String} {stop : Option String} {missing : Rat}
    {finalline : String} {ps ps2 : PState} {line : String}
    (hI : Inv ps) (h : processLine start stop missing finalline ps line = .ok ps2) :
    Inv ps2 := by
  unfold processLine at h
  obtain ⟨ps1, h1, h2⟩ := except_bind_ok.mp h
  have hI1 : Inv ps1 := by
    rcases handleBoundary_cases h1 with hcase | ⟨b, hcase⟩ | ⟨hidle, t, hcase⟩
    · exact hcase ▸ hI
    · subst hcase
      obtain ⟨hy, hsz, htt, htm, hemp, hdata⟩ := hI
      refine ⟨rfl, rfl, rfl, rfl, fun _ => rfl, ?_⟩
      intro T hT
      simp only [flushTrial, mkTrial, List.mem_append, List.mem_singleton] at hT
      rcases hT with hT | hT
      · exact hdata T hT
      · subst hT
        exact ⟨hy, hsz, htt, ps.starttime, htm⟩
    · subst hcase
      obtain ⟨hy, hsz, htt, htm, hemp, hdata⟩ := hI
      have hx : ps.x = [] := hemp hidle
      have htte : ps.trackertime = [] := List.length_eq_zero.mp (by rw [htt, hx]; rfl)
      have htme : ps.time = [] := by rw [htm, htte]; rfl
      exact ⟨hy, hsz, htt, by rw [htme, htte]; rfl, fun _ => hx, hdata⟩
  by_cases hs1 : ps1.started = true
  · rw [if_pos hs1] at h2
    rcases classifyLine_cases h2 with ⟨ev, hcase⟩ | ⟨t, xv, yv, sz, hcase⟩
    · subst hcase
      obtain ⟨hy, hsz, htt, htm, hemp, hdata⟩ := hI1
      exact ⟨hy, hsz, htt, htm, hemp, hdata⟩
    · subst hcase
      obtain ⟨hy, hsz, htt, htm, hemp, hdata⟩ := hI1
      refine ⟨?_, ?_, ?_, ?_, ?_, hdata⟩
      · simp [hy]
      · simp [hsz]
      · simp [htt]
      · simp only [htm, List.map_append]
        rfl
      · intro hfalse
        simp only at hfalse
        rw [hfalse] at hs1
        cases hs1
  · rw [if_neg hs1] at h2
    injection h2 with h3
    exact h3 ▸ hI1

/-- Every trial of a successfully parsed document satisfies
`TrialGood`. -/
theorem read_edf_good {raw : List String} {start : String} {stop : Option String}
    {missing : Rat} {doc : List Trial}
    (h : read_edf raw start stop missing = .ok doc) : ∀ T ∈ doc, TrialGood T := by
  unfold read_edf at h
  cases hL : raw.getLast? with
  | none =>
      rw [hL] at h
      cases h
  | some fl =>
      rw [hL] at h
      obtain ⟨ps, hps, hdata⟩ := except_map_ok.mp h
      have hInv : Inv ps :=
        foldlM_except_ok_ind Inv (fun s a s2 hP hstep => processLine_inv hP hstep)
          raw initState ps inv_initState hps
      exact hdata ▸ hInv.2.2.2.2.2

/-- C2: for every trial T of a successfully parsed document the five
sample sequences have equal length:
len x = len y = len size = len time = len trackertime. -/
theorem read_edf_sample_lengths {raw : List String} {start : String} {stop : Option String}
    {missing : Rat} {doc : List Trial}
    (h : read_edf raw start stop missing = .ok doc) :
    ∀ T ∈ doc, T.x.length = T.y.length ∧ T.x.length = T.size.length ∧
      T.x.length = T.time.length ∧ T.x.length = T.trackertime.length := by
  intro T hT
  obtain ⟨hy, hsz, htt, s, htm⟩ := read_edf_good h T hT
  refine ⟨hy.symm, hsz.symm, ?_, htt.symm⟩
  rw [htm, List.length_map, htt]

/-- Witness for C2 at a concrete parse with one sample line. -/
theorem read_edf_sample_lengths_witness :
    read_edf ["MSG\t900 S\n", "1000\t  50.0\t  60.0\t 0.0\t...\n", "E\n"] "S" none 0 =
      .ok [trialScenario5] ∧
    (trialScenario5.x.length = trialScenario5.y.length ∧
     trialScenario5.x.length = trialScenario5.size.length ∧
     trialScenario5.x.length = trialScenario5.time.length ∧
     trialScenario5.x.length = trialScenario5.trackertime.length) :=
  have h : read_edf ["MSG\t900 S\n", "1000\t  50.0\t  60.0\t 0.0\t...\n", "E\n"] "S" none 0 =
      .ok [trialScenario5] := by rfl
  ⟨h, read_edf_sample_lengths h trialScenario5 (List.mem_singleton.mpr rfl)⟩

/-- C3 (amended): for every trial T of a successfully parsed document
there is a single base timestamp s with T.time i = T.trackertime i - s
for every sample index; s is the starttime the parser held while the
samples accumulated, i.e. the timestamp recorded at the most recent
idle-to-open transition — not necessarily the one on the line that opened
T, since a trial opened back-to-back by a start-marker line (no stop
marker configured) inherits the previous starttime unchanged. -/
theorem read_edf_time_base {raw : List String} {start : String} {stop : Option String}
    {missing : Rat} {doc : List Trial}
    (h : read_edf raw start stop missing = .ok doc) :
    ∀ T ∈ doc, ∃ s : Int, T.time = T.trackertime.map (fun tt => tt - s) :=
  fun T hT => (read_edf_good h T hT).2.2.2

/-- Witness for C3 (amended) at the back-to-back-start input. -/
theorem read_edf_time_base_witness :
    read_edf rawRestart "TRIALSTART" none 0 = .ok [trialRestart1, trialRestart2] ∧
    ∃ s : Int, trialRestart2.time = trialRestart2.trackertime.map (fun tt => tt - s) :=
  have h : read_edf rawRestart "TRIALSTART" none 0 = .ok [trialRestart1, trialRestart2] := by
    rfl
  ⟨h, read_edf_time_base h trialRestart2
        (List.mem_cons_of_mem _ (List.mem_singleton.mpr rfl))⟩

/-- C3 counterexample: in `rawRestart` the second trial is opened by the
line `MSG\t200 TRIALSTART\n`, whose parsed start timestamp (between the
first tab and the first space) is 200, yet its sample has time 900 and
trackertime 1000, and 900 is not 1000 - 200 — the parser never updates
`starttime` when a trial is opened back-to-back by a start line while a
trial is already open. -/
theorem restart_keeps_old_starttime :
    (read_edf rawRestart "TRIALSTART" none 0).map
        (fun d => d.map fun T => (T.time, T.trackertime)) =
      .ok [(([] : List Int), ([] : List Int)), ([900], [1000])] ∧
    pyIntE (pySlice "MSG\t200 TRIALSTART\n" (pyFind "MSG\t200 TRIALSTART\n" '\t' + 1)
        (pyFind "MSG\t200 TRIALSTART\n" ' ')) = .ok 200 ∧
    (900 : Int) ≠ 1000 - 200 :=
  ⟨rfl, rfl, by decide⟩

/-- Processing a block of lines none of which contains the start marker,
from an idle state, leaves the state untouched. -/
theorem foldlM_no_marker (start : String) (stop : Option String) (missing : Rat)
    (fl : String) :
    ∀ (l : List String) (ps : PState), ps.started = false →
      (∀ line ∈ l, pyContains line start = false) →
      l.foldlM (processLine start stop missing fl) ps = .ok ps := by
  intro l
  induction l with
  | nil => intro ps h1 h2; rfl
  | cons a r ih =>
      intro ps h1 h2
      have hb : handleBoundary start stop fl ps a = .ok ps := by
        unfold handleBoundary
        rw [if_neg (by simp [h1]), if_neg (by simp [h2 a (List.mem_cons_self a r)])]
      have hp : processLine start stop missing fl ps a = .ok ps := by
        unfold processLine
        rw [hb]
        show (if ps.started then classifyLine missing ps a else pure ps) = .ok ps
        rw [if_neg (by simp [h1])]
        rfl
      rw [List.foldlM_cons, hp]
      show r.foldlM (processLine start stop missing fl) ps = .ok ps
      exact ih ps h1 (fun line hl => h2 line (List.mem_cons_of_mem a hl))

/-- C6 (amended): for every nonempty input in which no line contains the
start marker, parse succeeds and returns the empty document.  (The claim
as stated also covers the zero-line input, on which the code instead
raises an IndexError while computing raw[-1]; see the counterexample.) -/
theorem no_marker_empty_document (raw : List String) (start : String) (stop : Option String)
    (missing : Rat) (hne : raw ≠ [])
    (hnm : ∀ line ∈ raw, pyContains line start = false) :
    read_edf raw start stop missing = .ok [] := by
  obtain ⟨fl, hfl⟩ : ∃ fl, raw.getLast? = some fl := by
    cases raw with
    | nil => exact absurd rfl hne
    | cons a r => exact ⟨(a :: r).getLast (by simp), List.getLast?_eq_getLast _ _⟩
  simp only [read_edf, hfl]
  rw [foldlM_no_marker start stop missing fl raw initState rfl hnm]
  rfl

/-- Witness for C6 (amended) at a concrete two-line marker-free input. -/
theorem no_marker_empty_document_witness :
    read_edf ["A\n", "B\n"] "S" none 0 = .ok [] :=
  no_marker_empty_document ["A\n", "B\n"] "S" none 0 (by decide) (by decide)

/-- C6 counterexample: on the input with zero lines the parse does not
succeed with an empty document — computing the final line of an empty
sequence raises an IndexError. -/
theorem empty_input_index_error :
    read_edf [] "S" none 0 = .error .indexError ∧
    (Except.error .indexError : Except PyError (List Trial)) ≠ .ok [] :=
  ⟨rfl, by simp⟩

/-- C1 (amended): with no stop marker configured, while a trial is open,
the boundary step closes (flushes) it exactly when the line contains the
start marker or the text of the line equals the text of the final line of
the input — in particular at the final line itself, but also at any
mid-file line whose text happens to coincide with it — and in both cases
the started flag stays set, so trial accumulation begins again on that
same line. -/
theorem trial_close_no_stop (start finalline line : String) (ps : PState)
    (h : ps.started = true) :
    handleBoundary start none finalline ps line =
      .ok (if pyContains line start || line == finalline then flushTrial ps else ps) ∧
    (flushTrial ps).started = true := by
  constructor
  · unfold handleBoundary
    rw [if_pos h]
    dsimp only
    have hps : { ps with started := true } = ps := by
      cases ps
      simp_all
    rw [hps]
    split <;> rfl
  · simp only [flushTrial]
    exact h

/-- Witness for C1 (amended), at a started state and a line without the
marker whose text equals the final line. -/
theorem trial_close_no_stop_witness :
    handleBoundary "S" none "X\n" { initState with started := true } "X\n" =
      .ok (if pyContains "X\n" "S" || "X\n" == "X\n"
           then flushTrial { initState with started := true }
           else { initState with started := true }) ∧
    (flushTrial { initState with started := true }).started = true :=
  trial_close_no_stop "S" "X\n" "X\n" { initState with started := true } rfl

/-- C1 counterexample: in the input ["MSG\t100 S\n", "X\n", "X\n"] with
start marker "S" and no stop marker, the second line contains no marker
and is not the final line of the input, yet its text equals the final
line's text, so it closes the open trial: the parser emits two trials
where the claim allows only the single trial closed at the final line. -/
theorem duplicate_final_line_closes_trial :
    (read_edf ["MSG\t100 S\n", "X\n", "X\n"] "S" none 0).map List.length = .ok 2 ∧
    pyContains "X\n" "S" = false ∧ (2 : Nat) ≠ 1 :=
  ⟨rfl, rfl, by decide⟩

/-- C7 (amended): on the two-line scenario-1 input the parser emits
exactly one trial, closed at end-of-input, with all five sample sequences
empty — but its msg list is [(100, "TRIALSTART\n")]: the start line itself
is classified as a message line of the trial it opens, while the final
line's message is appended to the fresh buffers of a successor trial that
is never emitted. -/
theorem scenario1_actual :
    read_edf ["MSG\t100 TRIALSTART\n", "MSG\t100 TRIALNR END\n"] "TRIALSTART" none 0 =
      .ok [⟨[], [], [], [], [], ⟨[], [], [], [], [], [], [(100, "TRIALSTART\n")]⟩⟩] :=
  rfl

/-- C7 counterexample: the unique emitted trial's msg list is
[(100, "TRIALSTART\n")], not the [(100, "TRIALNR END\n")] the claim
specifies. -/
theorem scenario1_msg_mismatch :
    (read_edf ["MSG\t100 TRIALSTART\n", "MSG\t100 TRIALNR END\n"] "TRIALSTART" none 0).map
        (fun d => d.map fun T => T.events.msg) = .ok [[(100, "TRIALSTART\n")]] ∧
    ([((100 : Int), "TRIALSTART\n")] : List (Int × String)) ≠ [(100, "TRIALNR END\n")] :=
  ⟨rfl, by decide⟩

/-- C8 (amended): inside an open trial the line "SFIX L  12345" appends
the bare timestamp 2345 to Sfix — the remainder of this 13-character line
after the fixed 9-character offset is "2345", not "12345", and the source
appends the integer itself rather than a singleton list. -/
theorem sfix_scenario_actual :
    read_edf ["MSG\t100 TRIALSTART\n", "SFIX L  12345\n", "END\n"] "TRIALSTART" none 0 =
      .ok [⟨[], [], [], [], [], ⟨[2345], [], [], [], [], [], [(100, "TRIALSTART\n")]⟩⟩] ∧
    pySliceFrom "SFIX L  12345\n" 9 = "2345\n" :=
  ⟨rfl, rfl⟩

/-- C8 counterexample: the Sfix list produced for the scenario-3 line is
[2345], and 2345 is not the 12345 the claim specifies. -/
theorem sfix_timestamp_mismatch :
    (read_edf ["MSG\t100 TRIALSTART\n", "SFIX L  12345\n", "END\n"] "TRIALSTART" none 0).map
        (fun d => d.map fun T => T.events.Sfix) = .ok [[2345]] ∧
    ([(2345 : Int)] : List Int) ≠ [12345] :=
  ⟨rfl, by decide⟩

/-- On tab-split fields whose first entry parses as an integer and whose
fourth entry parses to exactly zero, the sample branch accepts the line
with both gaze coordinates forced to zero. -/
theorem parseSample_zero {l : List String} {t : Int} {s3 : String}
    (hint : pyIntOfChars (l.headD "").data = some t)
    (hs3 : l.get? 3 = some s3)
    (hsz : pyFloatOfChars s3.data = some 0) :
    parseSample l = some (.ok (t, 0, 0, 0)) := by
  have hg : pyGetE l 3 = .ok s3 := by unfold pyGetE; rw [hs3]
  have hf : pyFloatE s3 = .ok 0 := by unfold pyFloatE; rw [hsz]
  unfold parseSample
  rw [hint]
  simp [hg, hf, Bind.bind, Except.bind, pure, Except.pure]

/-- C4: any line inside an open trial that matches none of the seven
event tags, whose first tab field parses as an integer t and whose fourth
tab field parses to exactly 0.0, appends x = 0 and y = 0 — whatever the
literal text of the second and third fields — together with size 0,
time t - starttime and trackertime t. -/
theorem zero_pupil_forces_zero_gaze (missing : Rat) (ps : PState) (line : String)
    (t : Int) (s3 : String)
    (h1 : pySlice line 0 3 ≠ "MSG")
    (h2 : pySlice line 0 6 ≠ "SFIX L")
    (h3 : pySlice line 0 6 ≠ "EFIX L")
    (h4 : pySlice line 0 7 ≠ "SSACC L")
    (h5 : pySlice line 0 7 ≠ "ESACC L")
    (h6 : pySlice line 0 6 ≠ "SBLINK")
    (h7 : pySlice line 0 6 ≠ "EBLINK")
    (hint : pyIntOfChars ((pySplit line '\t').headD "").data = some t)
    (hs3 : (pySplit line '\t').get? 3 = some s3)
    (hsz : pyFloatOfChars s3.data = some 0) :
    classifyLine missing ps line =
      .ok { ps with x := ps.x ++ [0], y := ps.y ++ [0], size := ps.size ++ [0],
                    time := ps.time ++ [t - ps.starttime],
                    trackertime := ps.trackertime ++ [t] } := by
  unfold classifyLine
  rw [if_neg h1, if_neg h2, if_neg h3, if_neg h4, if_neg h5, if_neg h6, if_neg h7,
    parseSample_zero hint hs3 hsz]
  rfl

/-- Witness for C4 at the scenario-5 line, inside an open trial with
start timestamp 900: the second and third fields hold 50.0 and 60.0, yet
x = y = 0, size = 0, time = 100 and trackertime = 1000. -/
theorem zero_pupil_forces_zero_gaze_witness :
    (pySplit "1000\t  50.0\t  60.0\t 0.0\t..." '\t').get? 3 = some " 0.0" ∧
    pyFloatOfChars " 0.0".data = some 0 ∧
    classifyLine 0 { initState with started := true, starttime := 900 }
        "1000\t  50.0\t  60.0\t 0.0\t..." =
      .ok { initState with
            started := true, starttime := 900,
            x := [0], y := [0], size := [0], time := [100], trackertime := [1000] } :=
  ⟨rfl, rfl,
    zero_pupil_forces_zero_gaze 0 { initState with started := true, starttime := 900 }
      "1000\t  50.0\t  60.0\t 0.0\t..." 1000 " 0.0" (by decide) (by decide) (by decide)
      (by decide) (by decide) (by decide) (by decide) rfl rfl rfl⟩

/-- C5: MissingValueCoder.decode (= replace_missing) returns the
configured missing value exactly when the field with all spaces removed
is the single character "."; otherwise it returns the float() parse of
the field when that parse succeeds and fails with a ValueError (the
ValueParse-kind error) when it does not; and, through the EFIX branch,
a period field is decoded to the sentinel while a numeric field with
leading spaces parses to its value — as in scenario 4, where the fields
100, 200, 100, ".", "300.5" yield the Efix entry
(100, 200, 100, missing, 300.5). -/
theorem replace_missing_spec (value : String) (missing : Rat) :
    (value.data.filter (fun c => c != ' ') = ['.'] →
      replace_missing value missing = .ok missing) ∧
    (value.data.filter (fun c => c != ' ') ≠ ['.'] → ∀ q,
      pyFloatOfChars value.data = some q → replace_missing value missing = .ok q) ∧
    (value.data.filter (fun c => c != ' ') ≠ ['.'] →
      pyFloatOfChars value.data = none →
      replace_missing value missing = .error .valueError) ∧
    ∀ ps : PState, classifyLine missing ps "EFIX L   100\t200\t100\t.\t300.5" =
      .ok { ps with events := { ps.events with
            Efix := ps.events.Efix ++ [⟨100, 200, 100, missing, 300.5⟩] } } := by
  refine ⟨?_, ?_, ?_, fun ps => ?_⟩
  · intro hm
    unfold replace_missing
    rw [if_pos hm]
  · intro hm q hq
    unfold replace_missing
    rw [if_neg hm]
    unfold pyFloatE
    rw [hq]
  · intro hm hq
    unfold replace_missing
    rw [if_neg hm]
    unfold pyFloatE
    rw [hq]
  · rfl

/-- Witness for C5: the period field decodes to the sentinel (also a
nonzero one), a field with leading spaces parses to its value, and an
unparseable non-missing field (interior spaces defeat float()) raises
the ValueError. -/
theorem replace_missing_spec_witness :
    replace_missing " . " 5 = .ok 5 ∧
    replace_missing " 300.5" 0 = .ok (601 / 2) ∧
    replace_missing "3 . 5" 0 = .error .valueError :=
  ⟨(replace_missing_spec " . " 5).1 (by decide),
   (replace_missing_spec " 300.5" 0).2.1 (by decide) (601 / 2) rfl,
   (replace_missing_spec "3 . 5" 0).2.2.1 (by decide) rfl⟩

/-- C9: any line inside an open trial that matches none of the seven
event tags and whose first tab field does not parse as an integer is
skipped: the state is returned unchanged and no error is raised. -/
theorem malformed_sample_skipped (missing : Rat) (ps : PState) (line : String)
    (h1 : pySlice line 0 3 ≠ "MSG")
    (h2 : pySlice line 0 6 ≠ "SFIX L")
    (h3 : pySlice line 0 6 ≠ "EFIX L")
    (h4 : pySlice line 0 7 ≠ "SSACC L")
    (h5 : pySlice line 0 7 ≠ "ESACC L")
    (h6 : pySlice line 0 6 ≠ "SBLINK")
    (h7 : pySlice line 0 6 ≠ "EBLINK")
    (hint : pyIntOfChars ((pySplit line '\t').headD "").data = none) :
    classifyLine missing ps line = .ok ps := by
  unfold classifyLine
  rw [if_neg h1, if_neg h2, if_neg h3, if_neg h4, if_neg h5, if_neg h6, if_neg h7]
  unfold parseSample
  rw [hint]

/-- Witness for C9 at a concrete unparseable line. -/
theorem malformed_sample_skipped_witness :
    pyIntOfChars ((pySplit "garbage\tline\n" '\t').headD "").data = none ∧
    classifyLine 0 { initState with started := true } "garbage\tline\n" =
      .ok { initState with started := true } :=
  ⟨rfl,
    malformed_sample_skipped 0 { initState with started := true } "garbage\tline\n"
      (by decide) (by decide) (by decide) (by decide) (by decide) (by decide) (by decide)
      rfl⟩

/-- On tab-split fields with an integer first entry but fewer than four
entries, the sample branch raises an IndexError: only the integer check
is guarded. -/
theorem parseSample_short {l : List String} {t : Int}
    (hint : pyIntOfChars (l.headD "").data = some t)
    (hlen : l.length < 4) :
    parseSample l = some (.error .indexError) := by
  have hg : pyGetE l 3 = .error .indexError := by
    unfold pyGetE
    rw [List.get?_eq_none.mpr (by omega)]
  unfold parseSample
  rw [hint]
  simp [hg, Bind.bind, Except.bind]

/-- C10: any line inside an open trial that matches none of the seven
event tags, whose first tab field parses as an integer but which has
fewer than four tab fields, makes the dispatch fail with an IndexError
instead of being skipped: the accesses beyond the first field sit outside
the guarded block. -/
theorem short_sample_index_error (missing : Rat) (ps : PState) (line : String) (t : Int)
    (h1 : pySlice line 0 3 ≠ "MSG")
    (h2 : pySlice line 0 6 ≠ "SFIX L")
    (h3 : pySlice line 0 6 ≠ "EFIX L")
    (h4 : pySlice line 0 7 ≠ "SSACC L")
    (h5 : pySlice line 0 7 ≠ "ESACC L")
    (h6 : pySlice line 0 6 ≠ "SBLINK")
    (h7 : pySlice line 0 6 ≠ "EBLINK")
    (hint : pyIntOfChars ((pySplit line '\t').headD "").data = some t)
    (hlen : (pySplit line '\t').length < 4) :
    classifyLine missing ps line = .error .indexError := by
  unfold classifyLine
  rw [if_neg h1, if_neg h2, if_neg h3, if_neg h4, if_neg h5, if_neg h6, if_neg h7,
    parseSample_short hint hlen]
  rfl

/-- Witness for C10 at a concrete two-field line, plus the resulting
abort of a whole read_edf call containing that line inside a trial. -/
theorem short_sample_index_error_witness :
    (pySplit "123\tx\n" '\t').length < 4 ∧
    classifyLine 0 { initState with started := true } "123\tx\n" = .error .indexError ∧
    read_edf ["MSG\t100 S\n", "123\tx\n", "END\n"] "S" none 0 = .error .indexError :=
  ⟨by decide,
    short_sample_index_error 0 { initState with started := true } "123\tx\n" 123
      (by decide) (by decide) (by decide) (by decide) (by decide) (by decide) (by decide)
      rfl (by decide),
    rfl⟩

end Neurosystems
